import Mathlib

/-!
A shallow embedding of the trace-context propagation engine of
`ddtrace/tracer/textmap.go` (dd-trace-go): the span-context data model, the
three wire-format propagators (first-party "datadog", B3, W3C), the
propagating-tags codec, and the chained propagator, together with theorems
settling the frozen claims about them.

Strings on the wire are ASCII header keys/values; Go byte strings are
modelled as Lean `String`s (character sequences), which agree on ASCII.
Go `uint64` values are modelled as `Nat` (parsers enforce the `< 2^64`
range exactly where the Go parser returns a range error), and Go `int` as
`Int`. A carrier (`TextMapReader`/`TextMapWriter`) is modelled as the list
of key/value pairs it yields in `ForeachKey` order; a propagator's
injection is modelled by the list of `Set` calls it performs, in order.
-/

namespace DDTrace

/-- The four error kinds of the propagation layer (`ErrInvalidCarrier`,
`ErrInvalidSpanContext`, `ErrSpanContextNotFound`, `ErrSpanContextCorrupted`). -/
inductive PropagationError where
  | invalidCarrier
  | invalidSpanContext
  | spanContextNotFound
  | spanContextCorrupted
deriving DecidableEq, Repr

/-- Association-list update: last write wins per key (Go map assignment). -/
def assocSet : List (String × String) → String → String → List (String × String)
  | [], k, v => [(k, v)]
  | (k', v') :: rest, k, v =>
    if k' = k then (k, v) :: rest else (k', v') :: assocSet rest k v

/-- Association-list lookup (Go map read, `none` for a missing key). -/
def assocGet : List (String × String) → String → Option String
  | [], _ => none
  | (k', v') :: rest, k => if k' = k then some v' else assocGet rest k

/-- Go map read with the zero value `""` for a missing key. -/
def assocGetD (l : List (String × String)) (k : String) : String :=
  (assocGet l k).getD ""

/-- The shared, mutable per-trace state (`trace`): the propagating tags that
must cross process boundaries and the local tags where the codec records its
diagnostics. Maps are modelled as association lists; `[]` stands for Go's
nil map. -/
structure Trace where
  propagatingTags : List (String × String)
  tags : List (String × String)
deriving DecidableEq, Repr

/-- Modelled from the spec: trace state "created when a trace begins (first
span, or first extraction producing a SpanContext with no prior trace
state)", with no tags yet (`newTrace`, defined outside the shown source). -/
def newTrace : Trace := ⟨[], []⟩

/-- `trace.setTag`: records a local (non-propagating) tag on the trace. -/
def Trace.setTag (tr : Trace) (k v : String) : Trace :=
  { tr with tags := assocSet tr.tags k v }

/-- Modelled from the spec: the key of the "local diagnostic tag" under which
the codec records `encoding_error` / `inject_max_size` / `extract_max_size` /
`decoding_error` (`keyPropagationError`, defined outside the shown source). -/
def keyPropagationError : String := "_dd.propagation_error"

/-- The span context propagated across a boundary (`spanContext`):
64-bit trace and span IDs (0 = absent), optional sampling priority,
origin, baggage, the `updated` flag, and the shared trace state. -/
structure SpanContext where
  traceID : Nat
  spanID : Nat
  samplingPriority : Option Int
  origin : String
  baggage : List (String × String)
  updated : Bool
  trace : Option Trace
deriving DecidableEq, Repr

/-- The zero `spanContext` that extraction starts from (`var ctx spanContext`). -/
def emptySpanContext : SpanContext :=
  { traceID := 0, spanID := 0, samplingPriority := none, origin := ""
    baggage := [], updated := false, trace := none }

/-- Modelled from the spec: `samplingPriority` is an "optional signed integer";
"presence is distinguished from unset", and `updated` is "set whenever
priority/origin/tags change after extraction"
(`spanContext.setSamplingPriority`, defined outside the shown source). -/
def SpanContext.setSamplingPriority (ctx : SpanContext) (p : Int) : SpanContext :=
  { ctx with
    samplingPriority := some p
    updated := ctx.updated || ctx.samplingPriority != some p }

/-- Modelled from the spec: baggage is a "mapping of arbitrary string keys to
string values, propagated verbatim" (`spanContext.setBaggageItem`, defined
outside the shown source). -/
def SpanContext.setBaggageItem (ctx : SpanContext) (k v : String) : SpanContext :=
  { ctx with baggage := assocSet ctx.baggage k v }

/-- Modelled from the spec: the sampled flag is derived from whether sampling
priority is "auto-keep or above"; auto-keep is priority `1`
(`ext.PriorityAutoKeep`, defined outside the shown source). -/
def priorityAutoKeep : Int := 1

/-- A carrier, as seen through `ForeachKey`: its key/value pairs in visit order. -/
def Carrier : Type := List (String × String)

/-- `originHeader`: the fixed header carrying the trace's origin. -/
def originHeader : String := "x-datadog-origin"

/-- `traceTagsHeader`: the fixed header carrying the propagated trace tags. -/
def traceTagsHeader : String := "x-datadog-tags"

/-- `propagationExtractMaxSize`: size limit on incoming propagated tags. -/
def propagationExtractMaxSize : Nat := 512

/-- `DefaultBaggageHeaderPrefix`. -/
def defaultBaggageHeaderPfx : String := "ot-baggage-"

/-- `DefaultTraceIDHeader`. -/
def defaultTraceIDHeader : String := "x-datadog-trace-id"

/-- `DefaultParentIDHeader`. -/
def defaultParentIDHeader : String := "x-datadog-parent-id"

/-- `DefaultPriorityHeader`. -/
def defaultPriorityHeader : String := "x-datadog-sampling-priority"

/-- `PropagatorConfig` (field `baggagePfx` renders the source's baggage-key
field, `traceHeader`/`parentHeader`/`priorityHeader` the configurable header
names, `maxTagsHeaderLen` the tag-header length bound, `b3` the B3 flag). -/
structure PropagatorConfig where
  baggagePfx : String
  traceHeader : String
  parentHeader : String
  priorityHeader : String
  maxTagsHeaderLen : Int
  b3 : Bool
deriving DecidableEq, Repr

/-- Modelled from the spec: `defaultMaxTagsHeaderLen`, the default value of
`MaxTagsHeaderLen` (defined outside the shown source; its exact value is
irrelevant to the claims). -/
def defaultMaxTagsHeaderLen : Int := 128

/-- The configuration produced by `NewPropagator` from a nil config: every
header name takes its default. -/
def defaultConfig : PropagatorConfig :=
  { baggagePfx := defaultBaggageHeaderPfx
    traceHeader := defaultTraceIDHeader
    parentHeader := defaultParentIDHeader
    priorityHeader := defaultPriorityHeader
    maxTagsHeaderLen := defaultMaxTagsHeaderLen
    b3 := false }

/-- Value of a decimal digit character, `none` otherwise. -/
def decDigitVal (c : Char) : Option Nat :=
  if '0' ≤ c ∧ c ≤ '9' then some (c.toNat - 48) else none

/-- Value of a hexadecimal digit character (both cases), `none` otherwise
(`strconv.ParseUint` with base 16 accepts `0-9a-fA-F`). -/
def hexDigitVal (c : Char) : Option Nat :=
  if '0' ≤ c ∧ c ≤ '9' then some (c.toNat - 48)
  else if 'a' ≤ c ∧ c ≤ 'f' then some (c.toNat - 97 + 10)
  else if 'A' ≤ c ∧ c ≤ 'F' then some (c.toNat - 65 + 10)
  else none

/-- Digit-list accumulator shared by the numeric parsers. -/
def parseDigits (digit : Char → Option Nat) (base : Nat) (l : List Char) : Option Nat :=
  l.foldl (fun acc c => do
    let a ← acc
    let d ← digit c
    pure (a * base + d)) (some 0)

/-- `strconv.ParseUint(v, 16, 64)`: a non-empty all-hex-digit string whose
value fits in 64 bits; anything else (empty, bad digit, range overflow) is an
error. -/
def parseHexUint64 (s : String) : Option Nat :=
  if s.data.isEmpty then none
  else match parseDigits hexDigitVal 16 s.data with
    | some n => if n < 2 ^ 64 then some n else none
    | none => none

/-- Modelled from the spec: first-party trace/span IDs are "decimal integers"
and "a non-numeric trace/span/priority value is a hard decode error"
(`parseUint64`, defined outside the shown source): a non-empty all-decimal
string whose value fits in 64 bits. -/
def parseUint64 (s : String) : Option Nat :=
  if s.data.isEmpty then none
  else match parseDigits decDigitVal 10 s.data with
    | some n => if n < 2 ^ 64 then some n else none
    | none => none

/-- `strconv.Atoi`: an optional sign followed by a non-empty digit string,
value restricted to the 64-bit signed range. -/
def parseIntAtoi (s : String) : Option Int :=
  let (neg, digits) :=
    match s.data with
    | '-' :: rest => (true, rest)
    | '+' :: rest => (false, rest)
    | l => (false, l)
  if digits.isEmpty then none
  else match parseDigits decDigitVal 10 digits with
    | some n =>
      let v : Int := if neg then -(n : Int) else (n : Int)
      if -(2 ^ 63) ≤ v ∧ v < 2 ^ 63 then some v else none
    | none => none

/-- ASCII lower-casing of one character (`strings.ToLower` on the ASCII
header keys this engine handles). -/
def asciiToLower (c : Char) : Char :=
  if 'A' ≤ c ∧ c ≤ 'Z' then Char.ofNat (c.toNat + 32) else c

/-- ASCII lower-casing of a string. -/
def strToLower (s : String) : String := String.mk (s.data.map asciiToLower)

/-- Character-list core of `strStartsWith`. -/
def strStartsWithChars : List Char → List Char → Bool
  | _, [] => true
  | [], _ :: _ => false
  | c :: cs, p :: ps => c == p && strStartsWithChars cs ps

/-- `strings.HasPrefix(s, pat)`. -/
def strStartsWith (s pat : String) : Bool := strStartsWithChars s.data pat.data

/-- `s[n:]` on ASCII strings: drop the first `n` characters. -/
def strDrop (s : String) (n : Nat) : String := String.mk (s.data.drop n)

/-- Accumulating core of `splitOnChar`. -/
def splitOnCharAux (sep : Char) : List Char → List Char → List String
  | [], acc => [String.mk acc.reverse]
  | c :: rest, acc =>
    if c = sep then String.mk acc.reverse :: splitOnCharAux sep rest []
    else splitOnCharAux sep rest (c :: acc)

/-- `strings.Split(s, sep)` for a one-character separator: the (possibly
empty) pieces between occurrences of `sep`; `""` yields `[""]`. -/
def splitOnChar (sep : Char) (s : String) : List String :=
  splitOnCharAux sep s.data []

/-- Fuel-driven core of `hexDigits` (the fuel strictly exceeds `n`, so it
never runs out). -/
def hexDigitsAux : Nat → Nat → List Char
  | 0, _ => []
  | f + 1, n =>
    if n < 16 then [Nat.digitChar n]
    else hexDigitsAux f (n / 16) ++ [Nat.digitChar (n % 16)]

/-- Hexadecimal digit list of `n`, most significant first (lowercase), as
produced by Go's `%x` verb. -/
def hexDigits (n : Nat) : List Char := hexDigitsAux (n + 1) n

/-- Go's `fmt.Sprintf("%016x", n)`: lowercase hex, zero-padded to 16. -/
def hexPad16 (n : Nat) : String :=
  String.mk (List.replicate (16 - (hexDigits n).length) '0' ++ hexDigits n)

/-- Go's `fmt.Sprintf("%032x", n)`: lowercase hex, zero-padded to 32. -/
def hexPad32 (n : Nat) : String :=
  String.mk (List.replicate (32 - (hexDigits n).length) '0' ++ hexDigits n)

/-- `v[len(v)-n:]` for `n ≤ len(v)`: the trailing `n` characters of `s`. -/
def strTakeRight (s : String) (n : Nat) : String :=
  String.mk (s.data.drop (s.data.length - n))

/-!  ## Tag codec (`marshalPropagatingTags` / `unmarshalPropagatingTags`)  -/

/-- Modelled from the spec: a pair "fails tag-validity checks (control
characters, disallowed characters)" (`isValidPropagatableTag`, defined outside
the shown source): keys are non-empty printable ASCII without space, `=` or
`,`; values are printable ASCII without `,`. -/
def isValidPropagatableTag (k v : String) : Bool :=
  !k.data.isEmpty &&
  k.data.all (fun c => 32 ≤ c.toNat && c.toNat ≤ 126 &&
    c ≠ ' ' && c ≠ '=' && c ≠ ',') &&
  v.data.all (fun c => 32 ≤ c.toNat && c.toNat ≤ 126 && c ≠ ',')

/-- Modelled from the spec: deserialization "parse[s] comma-separated
`key=value` pairs into the trace's propagating-tags map"; malformed input is
an error (`parsePropagatableTraceTags`, defined outside the shown source). -/
def parsePropagatableTraceTags (s : String) : Option (List (String × String)) :=
  (splitOnChar ',' s).mapM fun p =>
    match splitOnChar '=' p with
    | k :: v :: rest =>
      if k.data.isEmpty then none
      else some (k, String.intercalate "=" (v :: rest))
    | _ => none

/-- The loop of `marshalPropagatingTags` over the propagating tags (modelled
in association-list order for Go's map range), threading the accumulated
string `sb` and the trace `tr` whose local tags receive the diagnostics:
an invalid pair is skipped with `encoding_error`; if `sb.Len()+len(k)+len(v)`
would exceed `maxLen` the whole string is reset and the loop breaks with
`inject_max_size`; otherwise `k=v` is appended, comma-separated. -/
def marshalLoop (maxLen : Int) :
    List (String × String) → String → Trace → String × Trace
  | [], sb, tr => (sb, tr)
  | (k, v) :: rest, sb, tr =>
    if !isValidPropagatableTag k v then
      marshalLoop maxLen rest sb (tr.setTag keyPropagationError "encoding_error")
    else if ((sb.length + k.length + v.length : Nat) : Int) > maxLen then
      ("", tr.setTag keyPropagationError "inject_max_size")
    else
      let sb := if sb.length > 0 then sb ++ "," else sb
      marshalLoop maxLen rest (sb ++ k ++ "=" ++ v) tr

/-- `propagator.marshalPropagatingTags`: serializes all propagating tags of
the context's trace to a comma-separated string (empty when there is no
trace), returning the string and the context with diagnostics recorded. -/
def marshalPropagatingTags (cfg : PropagatorConfig) (ctx : SpanContext) :
    String × SpanContext :=
  match ctx.trace with
  | none => ("", ctx)
  | some tr =>
    let r := marshalLoop cfg.maxTagsHeaderLen tr.propagatingTags "" tr
    (r.1, { ctx with trace := some r.2 })

/-- `unmarshalPropagatingTags`: deserializes tags from `v` into the context's
trace (created when absent); inputs longer than `propagationExtractMaxSize`
are rejected with `extract_max_size`, malformed inputs with
`decoding_error`. -/
def unmarshalPropagatingTags (ctx : SpanContext) (v : String) : SpanContext :=
  let tr := ctx.trace.getD newTrace
  if v.length > propagationExtractMaxSize then
    { ctx with trace := some (tr.setTag keyPropagationError "extract_max_size") }
  else
    match parsePropagatableTraceTags v with
    | some tags => { ctx with trace := some { tr with propagatingTags := tags } }
    | none =>
      let tr' := Trace.setTag { tr with propagatingTags := [] }
        keyPropagationError "decoding_error"
      { ctx with trace := some tr' }

/-!  ## First-party ("datadog") propagator  -/

/-- `propagator.injectTextMap`: the guard rejects a context with a zero trace
or span ID before any write; then the trace and span IDs are written in
decimal, followed by the optional priority, the optional origin, the baggage
(prefixed keys), and — when `MaxTagsHeaderLen > 0` and the serialization is
non-empty — the tags header. Returns the `Set` calls in order, the context
(whose trace may have received codec diagnostics), and the error. -/
def ddInjectTextMap (cfg : PropagatorConfig) (ctx : SpanContext) :
    List (String × String) × SpanContext × Option PropagationError :=
  if ctx.traceID = 0 ∨ ctx.spanID = 0 then
    ([], ctx, some .invalidSpanContext)
  else
    let w := [(cfg.traceHeader, toString ctx.traceID),
              (cfg.parentHeader, toString ctx.spanID)]
    let w := match ctx.samplingPriority with
      | some sp => w ++ [(cfg.priorityHeader, toString sp)]
      | none => w
    let w := if ctx.origin ≠ "" then w ++ [(originHeader, ctx.origin)] else w
    let w := w ++ ctx.baggage.map (fun kv => (cfg.baggagePfx ++ kv.1, kv.2))
    if cfg.maxTagsHeaderLen ≤ 0 then (w, ctx, none)
    else
      let (s, ctx') := marshalPropagatingTags cfg ctx
      if s.length > 0 then (w ++ [(traceTagsHeader, s)], ctx', none)
      else (w, ctx', none)

/-- The `ForeachKey` handler of `propagator.extractTextMap`: keys are
lower-cased; the trace/span IDs parse as decimal (a failure is
`ErrSpanContextCorrupted`), the priority with `Atoi`, origin and tags headers
are taken verbatim, and any other key matching the baggage key pattern
becomes a baggage item. -/
def ddExtractStep (cfg : PropagatorConfig) (ctx : SpanContext)
    (kv : String × String) : Except PropagationError SpanContext :=
  let key := strToLower kv.1
  if key = cfg.traceHeader then
    match parseUint64 kv.2 with
    | some n => .ok { ctx with traceID := n }
    | none => .error .spanContextCorrupted
  else if key = cfg.parentHeader then
    match parseUint64 kv.2 with
    | some n => .ok { ctx with spanID := n }
    | none => .error .spanContextCorrupted
  else if key = cfg.priorityHeader then
    match parseIntAtoi kv.2 with
    | some p => .ok (ctx.setSamplingPriority p)
    | none => .error .spanContextCorrupted
  else if key = originHeader then .ok { ctx with origin := kv.2 }
  else if key = traceTagsHeader then .ok (unmarshalPropagatingTags ctx kv.2)
  else if strStartsWith key cfg.baggagePfx then
    .ok (ctx.setBaggageItem (strDrop key cfg.baggagePfx.length) kv.2)
  else .ok ctx

/-- The `reader.ForeachKey` pass of `propagator.extractTextMap`: fold the
handler over the carrier, aborting on the first handler error. -/
def ddExtractFold (cfg : PropagatorConfig) (carrier : Carrier) :
    Except PropagationError SpanContext :=
  carrier.foldlM (ddExtractStep cfg) emptySpanContext

/-- `propagator.extractTextMap`: run the handler over the carrier, then
reject the result as `ErrSpanContextNotFound` unless the trace ID is non-zero
and the span ID is non-zero or the origin is `"synthetics"`. -/
def ddExtractTextMap (cfg : PropagatorConfig) (carrier : Carrier) :
    Except PropagationError SpanContext :=
  match ddExtractFold cfg carrier with
  | .error e => .error e
  | .ok ctx =>
    if ctx.traceID = 0 ∨ (ctx.spanID = 0 ∧ ctx.origin ≠ "synthetics") then
      .error .spanContextNotFound
    else .ok ctx

/-!  ## B3 propagator  -/

/-- `b3TraceIDHeader`. -/
def b3TraceIDHeader : String := "x-b3-traceid"

/-- `b3SpanIDHeader`. -/
def b3SpanIDHeader : String := "x-b3-spanid"

/-- `b3SampledHeader`. -/
def b3SampledHeader : String := "x-b3-sampled"

/-- `propagatorB3.injectTextMap`: same zero-ID guard, then the trace and span
IDs zero-padded to 16 lowercase hex characters, and — when a sampling
priority is present — the sampled flag, `"1"` iff the priority is at least
auto-keep. -/
def b3InjectTextMap (ctx : SpanContext) :
    List (String × String) × Option PropagationError :=
  if ctx.traceID = 0 ∨ ctx.spanID = 0 then
    ([], some .invalidSpanContext)
  else
    let w := [(b3TraceIDHeader, hexPad16 ctx.traceID),
              (b3SpanIDHeader, hexPad16 ctx.spanID)]
    let w := match ctx.samplingPriority with
      | some p =>
        w ++ [(b3SampledHeader, if p ≥ priorityAutoKeep then "1" else "0")]
      | none => w
    (w, none)

/-- The `ForeachKey` handler of `propagatorB3.extractTextMap`: a trace-ID
value longer than 16 characters is first truncated to its trailing 16
characters (`v = v[len(v)-16:]`); IDs parse as hex, the sampled flag with
`Atoi`; parse failures are `ErrSpanContextCorrupted`. -/
def b3ExtractStep (ctx : SpanContext) (kv : String × String) :
    Except PropagationError SpanContext :=
  let key := strToLower kv.1
  if key = b3TraceIDHeader then
    let v := if kv.2.length > 16 then strTakeRight kv.2 16 else kv.2
    match parseHexUint64 v with
    | some n => .ok { ctx with traceID := n }
    | none => .error .spanContextCorrupted
  else if key = b3SpanIDHeader then
    match parseHexUint64 kv.2 with
    | some n => .ok { ctx with spanID := n }
    | none => .error .spanContextCorrupted
  else if key = b3SampledHeader then
    match parseIntAtoi kv.2 with
    | some p => .ok (ctx.setSamplingPriority p)
    | none => .error .spanContextCorrupted
  else .ok ctx

/-- `propagatorB3.extractTextMap`: fold the handler over the carrier, then
require both a non-zero trace ID and a non-zero span ID, else
`ErrSpanContextNotFound`. -/
def b3ExtractTextMap (carrier : Carrier) : Except PropagationError SpanContext :=
  match carrier.foldlM b3ExtractStep emptySpanContext with
  | .error e => .error e
  | .ok ctx =>
    if ctx.traceID = 0 ∨ ctx.spanID = 0 then .error .spanContextNotFound
    else .ok ctx

/-!  ## W3C propagator  -/

/-- `traceparentHeader`. -/
def traceparentHeader : String := "traceparent"

/-- `tracestateHeader`. -/
def tracestateHeader : String := "tracestate"

/-- Printable-ASCII test (`\x20`–`\x7E`). -/
def isPrintableASCII (c : Char) : Bool := 32 ≤ c.toNat && c.toNat ≤ 126

/-- Helper for the termination of `sanitizeChars`. -/
theorem length_dropWhile_le' (p : Char → Bool) (l : List Char) :
    (l.dropWhile p).length ≤ l.length := by
  induction l with
  | nil => simp [List.dropWhile]
  | cons c rest ih =>
    by_cases h : p c
    · simp [List.dropWhile, h]; omega
    · simp [List.dropWhile, h]

/-- `regexp.ReplaceAllString(s, "_")` for the tracestate sanitizer patterns:
each listed single character, and each maximal run of non-printable-ASCII
characters, is replaced by one `_`. -/
def sanitizeChars (single : Char → Bool) : List Char → List Char
  | [] => []
  | c :: rest =>
    if single c then '_' :: sanitizeChars single rest
    else if !isPrintableASCII c then
      '_' :: sanitizeChars single (rest.dropWhile (fun d => !isPrintableASCII d))
    else c :: sanitizeChars single rest
  termination_by l => l.length
  decreasing_by
    all_goals
      have h := length_dropWhile_le' (fun d => !isPrintableASCII d) rest
      simp only [List.length_cons]
      omega

/-- `keyRgx.ReplaceAllString(s, "_")` with `keyRgx = ",|=|[^\x20-\x7E]+"`. -/
def sanitizeKeyRgx (s : String) : String :=
  String.mk (sanitizeChars (fun c => c == ',' || c == '=') s.data)

/-- `valueRgx.ReplaceAllString(s, "_")` with
`valueRgx = ",|;|:|[^\x20-\x7E]+"`. -/
def sanitizeValueRgx (s : String) : String :=
  String.mk (sanitizeChars (fun c => c == ',' || c == ';' || c == ':') s.data)

/-- `strings.ReplaceAll(s, "=", "~")`. -/
def replaceEqTilde (s : String) : String :=
  String.mk (s.data.map (fun c => if c = '=' then '~' else c))

/-- The propagating-tag loop of `composeTracestate`: tags with the reserved
`_dd.p.` key pattern are appended as `;t.<sanitized key rest>:<sanitized
value>` while the running length stays within 256 and the entry count below
32; the first tag that does not fit stops the loop. -/
def tagLoop : List (String × String) → String → Nat → String × Nat
  | [], b, n => (b, n)
  | (k, v) :: rest, b, n =>
    if !strStartsWith k "_dd.p." then tagLoop rest b n
    else
      let tag := "t." ++ sanitizeKeyRgx (strDrop k 6) ++ ":" ++
        replaceEqTilde (sanitizeValueRgx v)
      if b.length + tag.length ≤ 256 && n < 32 then
        tagLoop rest (b ++ ";" ++ tag) (n + 1)
      else (b, n)

/-- Everything of `s` up to and including its first `;`. -/
def upToFirstSemi : List Char → List Char
  | [] => []
  | c :: rest => if c = ';' then [c] else c :: upToFirstSemi rest

/-- `strings.SplitAfterN(s, ";", n)[0]`: the whole string when `n = 1`,
otherwise the piece up to and including the first `;` (the whole string when
no `;` occurs). For `n = 0` Go's slice is empty and indexing it would panic;
that argument is only reachable here with `n ≥ 0`, and the `n = 0` case is
modelled like the general one. -/
def splitAfterFirstPiece (s : String) (n : Nat) : String :=
  if n = 1 then s else String.mk (upToFirstSemi s.data)

/-- `strings.LastIndex(l, ";")`. -/
def lastIndexOfSemi (l : List Char) : Option Nat :=
  match l.reverse.findIdx? (· == ';') with
  | some k => some (l.length - 1 - k)
  | none => none

/-- The previous-tracestate loop of `composeTracestate`: the old state is
split on `,`; any prior `dd=` segment is dropped; a vendor segment is
appended comma-joined while the cumulative length stays under 255, truncated
to at most `32 - listLength` `;`-pieces when the entry budget is exhausted;
a segment that would overflow the length is cut at its last `;` that still
fits and ends the loop. (When the accumulated string already exceeds 255,
Go's slice `s[:255-b.Len()]` would panic on the negative bound; the model
truncates at 0.) -/
def vendorLoop : List String → String → Nat → String
  | [], b, _ => b
  | s :: rest, b, n =>
    if strStartsWith s "dd=" then vendorLoop rest b n
    else if b.length + s.length < 255 then
      if n + s.data.count ';' < 32 then
        vendorLoop rest (b ++ "," ++ s) n
      else
        vendorLoop rest (b ++ "," ++ splitAfterFirstPiece s (32 - n)) n
    else
      match lastIndexOfSemi (s.take (255 - b.length)).data with
      | some j => b ++ s.take j
      | none => b

/-- `composeTracestate`: builds `dd=s:<priority>;`, appends `o:<sanitized
origin>` when the origin is non-empty, then the reserved propagating tags,
then the other vendors' segments of the previous tracestate. The caller
guarantees the context's trace is present (Go dereferences it directly). -/
def composeTracestate (ctx : SpanContext) (priority : Int) (oldState : String) :
    String :=
  let b := "dd=s:" ++ toString priority ++ ";"
  let start : String × Nat :=
    if ctx.origin ≠ "" then (b ++ "o:" ++ sanitizeValueRgx ctx.origin, 2)
    else (b, 1)
  let step := tagLoop (ctx.trace.getD newTrace).propagatingTags start.1 start.2
  vendorLoop (splitOnChar ',' oldState) step.1 step.2

/-- Result of `propagatorW3c.injectTextMap`: the performed writes on success,
an error (before any write), or a Go runtime panic after the writes already
performed. -/
inductive W3cInjectResult where
  | ok (writes : List (String × String))
  | error (e : PropagationError)
  | panicked (writes : List (String × String))
deriving DecidableEq, Repr

/-- `propagatorW3c.injectTextMap`: same zero-ID guard; writes `traceparent`
as `00-<32 hex>-<16 hex>-<flags>` with flags `01` iff a priority is present
and at least auto-keep; then passes the stored tracestate through unchanged
unless the context was updated or the stored entry is not `dd=`-led, in which
case it recomposes it. A context without trace state hits a nil-pointer
dereference in Go (modelled as `panicked`). -/
def w3cInjectTextMap (ctx : SpanContext) : W3cInjectResult :=
  if ctx.traceID = 0 ∨ ctx.spanID = 0 then .error .invalidSpanContext
  else
    let p := ctx.samplingPriority.getD 0
    let flags :=
      if ctx.samplingPriority.isSome && p ≥ priorityAutoKeep then "01" else "00"
    let tp := (traceparentHeader,
      "00-" ++ hexPad32 ctx.traceID ++ "-" ++ hexPad16 ctx.spanID ++ "-" ++ flags)
    match ctx.trace with
    | none => .panicked [tp]
    | some tr =>
      let prev := assocGetD tr.propagatingTags tracestateHeader
      if ctx.updated ∨ (tr.propagatingTags ≠ [] ∧ ¬ strStartsWith prev "dd=") then
        .ok [tp, (tracestateHeader, composeTracestate ctx p prev)]
      else
        .ok [tp, (tracestateHeader, prev)]

/-- Outcome of `propagatorW3c.Extract`: either a Go return value pair, or a
panic that aborts the caller. -/
inductive W3cExtractOutcome where
  | returned (ctx : Option SpanContext) (err : Option PropagationError)
  | panicked (msg : String)
deriving DecidableEq, Repr

/-- `propagatorW3c.Extract`: the body is `panic("implement me")`, reached for
every carrier before anything else happens. -/
def propagatorW3cExtract (_carrier : Carrier) : W3cExtractOutcome :=
  .panicked "implement me"

/-!  ## Chained propagator and configuration  -/

/-- An extractor as the chain sees it: the `(ddtrace.SpanContext, error)`
pair a `Propagator.Extract` call returns on a given carrier. -/
def ExtractorFn : Type := Carrier → Option SpanContext × Option PropagationError

/-- View an `Except`-style extraction result as a Go return pair. -/
def exceptToPair :
    Except PropagationError SpanContext →
      Option SpanContext × Option PropagationError
  | .ok c => (some c, none)
  | .error e => (none, some e)

/-- The first-party `propagator.Extract` on a text-map carrier, as an
`ExtractorFn`. -/
def propagatorExtractFn (cfg : PropagatorConfig) : ExtractorFn :=
  fun carrier => exceptToPair (ddExtractTextMap cfg carrier)

/-- `propagatorB3.Extract` on a text-map carrier, as an `ExtractorFn`. -/
def propagatorB3ExtractFn : ExtractorFn :=
  fun carrier => exceptToPair (b3ExtractTextMap carrier)

/-- `chainedPropagator.Extract`: try each extractor in order; a non-nil
context is returned immediately (with a nil error); a `ErrSpanContextNotFound`
error continues with the next extractor; any other result is returned as is;
an exhausted list yields `ErrSpanContextNotFound`. -/
def chainedExtract :
    List ExtractorFn → Carrier → Option SpanContext × Option PropagationError
  | [], _ => (none, some .spanContextNotFound)
  | e :: rest, carrier =>
    match e carrier with
    | (some ctx, _) => (some ctx, none)
    | (none, err) =>
      if err = some PropagationError.spanContextNotFound then
        chainedExtract rest carrier
      else (none, err)

/-- An injector as the chain sees it: the `Set` calls it performs and the
error it returns on a given span context. -/
def InjectorFn : Type :=
  SpanContext → List (String × String) × Option PropagationError

/-- `chainedPropagator.Inject`: run every injector in order against the same
carrier; the first error aborts the rest and is returned. -/
def chainedInject :
    List InjectorFn → SpanContext → List (String × String) × Option PropagationError
  | [], _ => ([], none)
  | i :: rest, ctx =>
    match i ctx with
    | (w, some e) => (w, some e)
    | (w, none) =>
      let r := chainedInject rest ctx
      (w ++ r.1, r.2)

/-- The concrete propagators `getPropagators` can select. -/
inductive PropagatorKind where
  | datadog
  | b3
deriving DecidableEq, Repr

/-- `defaultPs` of `getPropagators`: the first-party propagator always, plus
the B3 propagator when the `B3` flag is set. -/
def defaultPropagators (cfg : PropagatorConfig) : List PropagatorKind :=
  [PropagatorKind.datadog] ++ if cfg.b3 then [PropagatorKind.b3] else []

/-- The token loop of `getPropagators`: `datadog` appends the first-party
propagator; `b3`/`b3multi` appends a B3 propagator unless one was pre-seeded
by the `B3` flag; `none` among other tokens and unrecognized tokens only log
a warning. -/
def propagatorsLoop (cfg : PropagatorConfig) :
    List String → List PropagatorKind → List PropagatorKind
  | [], acc => acc
  | v :: rest, acc =>
    let lv := strToLower v
    if lv = "datadog" then
      propagatorsLoop cfg rest (acc ++ [PropagatorKind.datadog])
    else if lv = "b3" ∨ lv = "b3multi" then
      if cfg.b3 then propagatorsLoop cfg rest acc
      else propagatorsLoop cfg rest (acc ++ [PropagatorKind.b3])
    else propagatorsLoop cfg rest acc

/-- `getPropagators`: resolves the selector `ps` for one direction (falling
back to the generic `DD_TRACE_PROPAGATION_STYLE` value `envStyle`, then to
the default list); the exact selector `none` disables the direction; an
otherwise empty selection also falls back to the default list. -/
def getPropagators (cfg : PropagatorConfig) (envStyle ps : String) :
    List PropagatorKind :=
  if ps = "" ∧ envStyle = "" then defaultPropagators cfg
  else
    let ps := if ps = "" then envStyle else ps
    if ps = "none" then []
    else
      let init := if cfg.b3 then [PropagatorKind.b3] else []
      let list := propagatorsLoop cfg (splitOnChar ',' ps) init
      if list = [] then defaultPropagators cfg
      else list

/-!  ## Helper lemmas  -/

theorem assocGet_assocSet (l : List (String × String)) (k v : String) :
    assocGet (assocSet l k v) k = some v := by
  induction l with
  | nil => simp [assocSet, assocGet]
  | cons hd tl ih =>
    obtain ⟨k', v'⟩ := hd
    by_cases hk : k' = k
    · simp [assocSet, assocGet, hk]
    · simp [assocSet, assocGet, hk, ih]

theorem hexDigitsAux_length_le (f : Nat) :
    ∀ (k n : Nat), n < f → n < 16 ^ (k + 1) →
      (hexDigitsAux f n).length ≤ k + 1 := by
  induction f with
  | zero => intro k n h _; omega
  | succ f ih =>
    intro k n hf hn
    unfold hexDigitsAux
    by_cases h16 : n < 16
    · rw [if_pos h16]
      simp only [List.length_singleton]
      omega
    · rw [if_neg h16]
      have hk : k ≠ 0 := by
        rintro rfl
        rw [pow_one] at hn
        omega
      obtain ⟨k', rfl⟩ : ∃ k', k = k' + 1 := ⟨k - 1, by omega⟩
      have h1 : n / 16 < f := by
        have := Nat.div_lt_self (show 0 < n by omega) (show 1 < 16 by omega)
        omega
      have h2 : n / 16 < 16 ^ (k' + 1) := by
        rw [Nat.div_lt_iff_lt_mul (by omega : (0:Nat) < 16)]
        calc n < 16 ^ (k' + 1 + 1) := hn
          _ = 16 ^ (k' + 1) * 16 := by rw [pow_succ]
      have h3 := ih k' (n / 16) h1 h2
      simp only [List.length_append, List.length_singleton]
      omega

theorem hexPad16_length (n : Nat) (h : n < 2 ^ 64) : (hexPad16 n).length = 16 := by
  have e : (16 : Nat) ^ 16 = 2 ^ 64 := by norm_num
  have hlen : (hexDigits n).length ≤ 16 := by
    have h' : n < 16 ^ (15 + 1) := by rw [show (15:Nat) + 1 = 16 from rfl, e]; exact h
    exact hexDigitsAux_length_le (n + 1) 15 n (Nat.lt_succ_self n) h'
  show (List.replicate (16 - (hexDigits n).length) '0' ++ hexDigits n).length = 16
  simp only [List.length_append, List.length_replicate]
  omega

/-!  ## Claims  -/

/-- C2: for every carrier, the W3C propagator's `Extract` panics with
`"implement me"`; it never returns a `(context, error)` pair to the caller.
The claim that it returns an unimplemented-operation error without panicking
contradicts the source, which aborts via `panic` on every call. -/
theorem c2_w3c_extract_panics (carrier : Carrier) :
    propagatorW3cExtract carrier = W3cExtractOutcome.panicked "implement me" ∧
    ∀ (o : Option SpanContext) (e : Option PropagationError),
      propagatorW3cExtract carrier ≠ W3cExtractOutcome.returned o e :=
  ⟨rfl, fun _ _ h => W3cExtractOutcome.noConfusion h⟩

/-- C4: injecting a span context whose trace ID or span ID is zero returns
`ErrInvalidSpanContext` in each of the three formats, and no `Set` call is
performed on the carrier (the write list is empty and, for the first-party
format, the context is returned unchanged). -/
theorem c4_inject_invalid_ids (cfg : PropagatorConfig) (ctx : SpanContext)
    (h : ctx.traceID = 0 ∨ ctx.spanID = 0) :
    ddInjectTextMap cfg ctx = ([], ctx, some PropagationError.invalidSpanContext) ∧
    b3InjectTextMap ctx = ([], some PropagationError.invalidSpanContext) ∧
    w3cInjectTextMap ctx = W3cInjectResult.error PropagationError.invalidSpanContext := by
  unfold ddInjectTextMap b3InjectTextMap w3cInjectTextMap
  rw [if_pos h, if_pos h, if_pos h]
  exact ⟨rfl, rfl, rfl⟩

/-- Witness for C4 at the zero span context. -/
theorem c4_inject_invalid_ids_witness :
    ddInjectTextMap defaultConfig emptySpanContext =
      ([], emptySpanContext, some PropagationError.invalidSpanContext) ∧
    b3InjectTextMap emptySpanContext = ([], some PropagationError.invalidSpanContext) ∧
    w3cInjectTextMap emptySpanContext =
      W3cInjectResult.error PropagationError.invalidSpanContext :=
  c4_inject_invalid_ids defaultConfig emptySpanContext (Or.inl rfl)

/-- C8: injecting `{traceID := 42, spanID := 52, samplingPriority := 1}` with
the B3 format writes exactly `x-b3-traceid = "000000000000002a"`,
`x-b3-spanid = "0000000000000034"` and `x-b3-sampled = "1"`; in general both
IDs are written zero-padded to 16 lowercase hex characters and the sampled
flag is `"1"` exactly when a priority is present and at least auto-keep,
`"0"` when present and below. -/
theorem c8_b3_inject_format :
    b3InjectTextMap
        { emptySpanContext with
          traceID := 42
          spanID := 52
          samplingPriority := some 1 } =
      ([("x-b3-traceid", "000000000000002a"), ("x-b3-spanid", "0000000000000034"),
        ("x-b3-sampled", "1")], none) ∧
    (∀ ctx : SpanContext, ctx.traceID ≠ 0 → ctx.spanID ≠ 0 →
      b3InjectTextMap ctx =
        ((b3TraceIDHeader, hexPad16 ctx.traceID) ::
          (b3SpanIDHeader, hexPad16 ctx.spanID) ::
          (match ctx.samplingPriority with
           | some p =>
             [(b3SampledHeader, if p ≥ priorityAutoKeep then "1" else "0")]
           | none => []), none)) ∧
    (∀ n : Nat, n < 2 ^ 64 → (hexPad16 n).length = 16) := by
  refine ⟨by decide, ?_, hexPad16_length⟩
  intro ctx h1 h2
  unfold b3InjectTextMap
  rw [if_neg (by tauto)]
  cases hp : ctx.samplingPriority <;> simp [hp]

/-- Witness for C8 at a concrete valid context. -/
theorem c8_b3_inject_format_witness :
    b3InjectTextMap { emptySpanContext with traceID := 1, spanID := 2 } =
      ([(b3TraceIDHeader, hexPad16 1), (b3SpanIDHeader, hexPad16 2)], none) ∧
    (hexPad16 5).length = 16 :=
  ⟨c8_b3_inject_format.2.1 { emptySpanContext with traceID := 1, spanID := 2 }
      (by decide) (by decide),
   c8_b3_inject_format.2.2 5 (by norm_num)⟩

/-- C6: deserializing a tags-header value longer than 512 characters sets no
propagating tags from it (the trace's propagating tags are exactly what they
were before, empty when the trace is freshly created) and records the
diagnostic `extract_max_size` under the propagation-error tag key. -/
theorem c6_unmarshal_max_size (ctx : SpanContext) (v : String)
    (h : v.length > propagationExtractMaxSize) :
    ∃ tr : Trace,
      (unmarshalPropagatingTags ctx v).trace = some tr ∧
      tr.propagatingTags = (ctx.trace.map Trace.propagatingTags).getD [] ∧
      assocGet tr.tags keyPropagationError = some "extract_max_size" := by
  refine ⟨(ctx.trace.getD newTrace).setTag keyPropagationError "extract_max_size",
    ?_, ?_, ?_⟩
  · unfold unmarshalPropagatingTags
    rw [if_pos h]
  · cases ctx.trace <;> rfl
  · exact assocGet_assocSet _ _ _

/-- A 513-character input for the C6 witness. -/
def longTagsValue : String := String.mk (List.replicate 513 'x')

set_option maxRecDepth 4000 in
/-- Witness for C6 at a fresh context and a 513-character value. -/
theorem c6_unmarshal_max_size_witness :
    ∃ tr : Trace,
      (unmarshalPropagatingTags emptySpanContext longTagsValue).trace = some tr ∧
      tr.propagatingTags =
        (emptySpanContext.trace.map Trace.propagatingTags).getD [] ∧
      assocGet tr.tags keyPropagationError = some "extract_max_size" :=
  c6_unmarshal_max_size emptySpanContext longTagsValue (by decide)

/-- C5: when the first-party `ForeachKey` pass over a carrier succeeds (every
recognized header parses), extraction returns the accumulated context exactly
when its trace ID is non-zero and its span ID is non-zero or its origin is
`"synthetics"`; in every other case it returns `ErrSpanContextNotFound`. -/
theorem c5_dd_extract_validity (cfg : PropagatorConfig) (carrier : Carrier)
    (ctx : SpanContext) (hfold : ddExtractFold cfg carrier = .ok ctx) :
    (ddExtractTextMap cfg carrier = .ok ctx ↔
      ctx.traceID ≠ 0 ∧ (ctx.spanID ≠ 0 ∨ ctx.origin = "synthetics")) ∧
    (¬(ctx.traceID ≠ 0 ∧ (ctx.spanID ≠ 0 ∨ ctx.origin = "synthetics")) →
      ddExtractTextMap cfg carrier = .error PropagationError.spanContextNotFound) := by
  have hdef : ddExtractTextMap cfg carrier =
      if ctx.traceID = 0 ∨ (ctx.spanID = 0 ∧ ctx.origin ≠ "synthetics") then
        .error PropagationError.spanContextNotFound
      else .ok ctx := by
    unfold ddExtractTextMap
    rw [hfold]
  by_cases hc : ctx.traceID = 0 ∨ (ctx.spanID = 0 ∧ ctx.origin ≠ "synthetics")
  · rw [hdef, if_pos hc]
    refine ⟨⟨fun h => Except.noConfusion h, fun h => ?_⟩, fun _ => rfl⟩
    exact absurd h (by tauto)
  · rw [hdef, if_neg hc]
    push_neg at hc
    refine ⟨⟨fun _ => ?_, fun _ => rfl⟩, fun h => ?_⟩
    · tauto
    · exact absurd (by tauto) h

/-- Witness for C5: the synthetic-origin scenario
`{x-datadog-trace-id: "42", x-datadog-origin: "synthetics"}` yields a valid
context with `traceID = 42`, `spanID = 0`, `origin = "synthetics"`. -/
theorem c5_dd_extract_validity_witness :
    ddExtractTextMap defaultConfig
        [("x-datadog-trace-id", "42"), ("x-datadog-origin", "synthetics")] =
      .ok { emptySpanContext with traceID := 42, origin := "synthetics" } :=
  (c5_dd_extract_validity defaultConfig
      [("x-datadog-trace-id", "42"), ("x-datadog-origin", "synthetics")]
      { emptySpanContext with traceID := 42, origin := "synthetics" }
      rfl).1.mpr (by decide)

/-- The cons equation of `chainedExtract`. -/
theorem chainedExtract_cons (e : ExtractorFn) (rest : List ExtractorFn)
    (carrier : Carrier) :
    chainedExtract (e :: rest) carrier =
      match e carrier with
      | (some ctx, _) => (some ctx, none)
      | (none, err) =>
        if err = some PropagationError.spanContextNotFound then
          chainedExtract rest carrier
        else (none, err) := rfl

/-- C1: the chained `Extract` tries the extractors in list order — a non-nil
context from the first extractor is returned at once with a nil error, a
not-found error moves on to the next extractor, any other error is returned
immediately, and a list all of whose extractors report not-found (in
particular the empty list) yields the not-found error. With extractors
`[B3, first-party]` and a carrier holding only first-party headers, the
result is the context built from the first-party headers. -/
theorem c1_chained_extract_order :
    (∀ (e : ExtractorFn) (rest : List ExtractorFn) (carrier : Carrier)
        (c : SpanContext) (err : Option PropagationError),
      e carrier = (some c, err) →
        chainedExtract (e :: rest) carrier = (some c, none)) ∧
    (∀ (e : ExtractorFn) (rest : List ExtractorFn) (carrier : Carrier),
      e carrier = (none, some PropagationError.spanContextNotFound) →
        chainedExtract (e :: rest) carrier = chainedExtract rest carrier) ∧
    (∀ (e : ExtractorFn) (rest : List ExtractorFn) (carrier : Carrier)
        (err : PropagationError),
      e carrier = (none, some err) →
      err ≠ PropagationError.spanContextNotFound →
        chainedExtract (e :: rest) carrier = (none, some err)) ∧
    (∀ (l : List ExtractorFn) (carrier : Carrier),
      (∀ e ∈ l, e carrier = (none, some PropagationError.spanContextNotFound)) →
        chainedExtract l carrier = (none, some PropagationError.spanContextNotFound)) ∧
    chainedExtract [propagatorB3ExtractFn, propagatorExtractFn defaultConfig]
        [("x-datadog-trace-id", "42"), ("x-datadog-parent-id", "52")] =
      (some { emptySpanContext with traceID := 42, spanID := 52 }, none) := by
  refine ⟨?_, ?_, ?_, ?_, by decide⟩
  · intro e rest carrier c err h
    rw [chainedExtract_cons, h]
  · intro e rest carrier h
    rw [chainedExtract_cons, h]
    simp
  · intro e rest carrier err h hne
    rw [chainedExtract_cons, h]
    simp [hne]
  · intro l carrier h
    induction l with
    | nil => rfl
    | cons e rest ih =>
      have he := h e (List.mem_cons_self e rest)
      have ih' := ih (fun e' he' => h e' (List.mem_cons_of_mem e he'))
      rw [chainedExtract_cons, he]
      simpa using ih'

/-- Witness for C1: a constant extractor returning a context short-circuits
the chain. -/
theorem c1_chained_extract_order_witness :
    chainedExtract [fun _ => (some emptySpanContext, none)] [] =
      (some emptySpanContext, none) :=
  c1_chained_extract_order.1 (fun _ => (some emptySpanContext, none)) [] []
    emptySpanContext none rfl

theorem strTakeRight_length_le (v : String) : (strTakeRight v 16).length ≤ 16 := by
  show (v.data.drop (v.data.length - 16)).length ≤ 16
  rw [List.length_drop]
  omega

theorem except_bind_ok {α β γ : Type} (a : α) (f : α → Except γ β) :
    (Except.ok a >>= f) = f a := rfl

theorem except_pure_eq {α γ : Type} (a : α) : (pure a : Except γ α) = Except.ok a := rfl

/-- C7: a `x-b3-traceid` value longer than 16 characters is extracted exactly
as its trailing 16 characters would be (right-truncation to the low 64 bits
before parsing), and a value of at most 16 characters is parsed whole as the
64-bit hex trace ID. -/
theorem c7_b3_traceid_truncation :
    (∀ (v : String) (rest : Carrier), v.length > 16 →
      b3ExtractTextMap ((b3TraceIDHeader, v) :: rest) =
        b3ExtractTextMap ((b3TraceIDHeader, strTakeRight v 16) :: rest)) ∧
    (∀ (v s : String) (tid sid : Nat), v.length ≤ 16 →
      parseHexUint64 v = some tid → tid ≠ 0 →
      parseHexUint64 s = some sid → sid ≠ 0 →
      b3ExtractTextMap [(b3TraceIDHeader, v), (b3SpanIDHeader, s)] =
        .ok ⟨tid, sid, none, "", [], false, none⟩) := by
  constructor
  · intro v rest hv
    have h16 : ¬ ((strTakeRight v 16).length > 16) := by
      have := strTakeRight_length_le v
      omega
    have hkey1 : strToLower b3TraceIDHeader = b3TraceIDHeader := by decide
    have hstep : b3ExtractStep emptySpanContext (b3TraceIDHeader, v) =
        b3ExtractStep emptySpanContext (b3TraceIDHeader, strTakeRight v 16) := by
      simp only [b3ExtractStep, hkey1, eq_self_iff_true, if_true]
      rw [if_pos hv, if_neg h16]
    unfold b3ExtractTextMap
    rw [List.foldlM_cons, List.foldlM_cons, hstep]
  · intro v s tid sid hlen hv htid hs hsid
    have h16 : ¬ (v.length > 16) := by omega
    have hkey1 : strToLower b3TraceIDHeader = b3TraceIDHeader := by decide
    have hkey2 : strToLower b3SpanIDHeader = b3SpanIDHeader := by decide
    have hne : b3SpanIDHeader ≠ b3TraceIDHeader := by decide
    have e1 : b3ExtractStep emptySpanContext (b3TraceIDHeader, v) =
        .ok ⟨tid, 0, none, "", [], false, none⟩ := by
      simp [b3ExtractStep, hkey1, h16, hv, emptySpanContext]
    have e2 : b3ExtractStep ⟨tid, 0, none, "", [], false, none⟩
        (b3SpanIDHeader, s) = .ok ⟨tid, sid, none, "", [], false, none⟩ := by
      simp [b3ExtractStep, hkey2, hne, hs]
    have hval : ¬ (tid = 0 ∨ sid = 0) := by tauto
    unfold b3ExtractTextMap
    simp only [List.foldlM_cons, List.foldlM_nil, e1, except_bind_ok, e2,
      except_pure_eq]
    simp [hval]

/-- Witness for C7: a 32-character trace ID extracts like its trailing 16
characters, and a short ID is parsed whole. -/
theorem c7_b3_traceid_truncation_witness :
    b3ExtractTextMap
        [(b3TraceIDHeader, "000000000000000000000000000000ff"),
         (b3SpanIDHeader, "1")] =
      b3ExtractTextMap
        [(b3TraceIDHeader, strTakeRight "000000000000000000000000000000ff" 16),
         (b3SpanIDHeader, "1")] ∧
    b3ExtractTextMap [(b3TraceIDHeader, "ff"), (b3SpanIDHeader, "1")] =
      .ok ⟨255, 1, none, "", [], false, none⟩ :=
  ⟨c7_b3_traceid_truncation.1 "000000000000000000000000000000ff"
      [(b3SpanIDHeader, "1")] (by decide),
   c7_b3_traceid_truncation.2 "ff" "1" 255 1 (by decide) (by decide) (by decide)
      (by decide) (by decide)⟩

theorem marshalLoop_length_le (maxLen : Int) :
    ∀ (tags : List (String × String)) (sb : String) (tr : Trace),
      sb.length ≤ maxLen.toNat + 2 →
      (marshalLoop maxLen tags sb tr).1.length ≤ maxLen.toNat + 2 := by
  intro tags
  induction tags with
  | nil => intro sb tr h; exact h
  | cons kv rest ih =>
    obtain ⟨k, v⟩ := kv
    intro sb tr h
    simp only [marshalLoop]
    by_cases hval : isValidPropagatableTag k v
    · rw [if_neg (by simp [hval])]
      by_cases hover : ((sb.length + k.length + v.length : Nat) : Int) > maxLen
      · rw [if_pos hover]
        simp
      · rw [if_neg hover]
        apply ih
        push_neg at hover
        have hle : sb.length + k.length + v.length ≤ maxLen.toNat := by omega
        have hcomma : ("," : String).length = 1 := rfl
        have heq : ("=" : String).length = 1 := rfl
        by_cases hsb : sb.length > 0
        · rw [if_pos hsb]
          simp only [String.length_append]
          omega
        · rw [if_neg hsb]
          simp only [String.length_append]
          omega
    · rw [if_pos (by simp [hval])]
      exact ih sb _ h

/-- C3 counterexample: with `MaxTagsHeaderLen = 2` and the single valid
propagating tag `a = b`, the length check `sb.Len()+len(k)+len(v) > max`
passes (`0+1+1 = 2 ≤ 2`) yet the serialized string `"a=b"` has length 3 — the
check does not count the `=` and `,` separators, so the emitted header can
exceed the configured maximum. -/
theorem c3_marshal_bound_counterexample :
    (marshalPropagatingTags { defaultConfig with maxTagsHeaderLen := 2 }
        { emptySpanContext with
          traceID := 1
          spanID := 1
          trace := some ⟨[("a", "b")], []⟩ }).1 = "a=b" ∧
    ¬ ((marshalPropagatingTags { defaultConfig with maxTagsHeaderLen := 2 }
        { emptySpanContext with
          traceID := 1
          spanID := 1
          trace := some ⟨[("a", "b")], []⟩ }).1.length ≤ 2) := by decide

/-- C3 (amended): tag serialization never emits a string longer than
`MaxTagsHeaderLen + 2` (the overflow check ignores the `=` of the pair being
appended and its leading `,`, so the emitted string can exceed
`MaxTagsHeaderLen` by up to those two separator characters); and whenever the
check fires for a valid pair — `sb.Len()+len(k)+len(v)` exceeding the
maximum — the entire accumulated string is reset so the result is empty and
`inject_max_size` is recorded on the trace: a partial tag set is never
emitted. -/
theorem c3_marshal_bound :
    (∀ (cfg : PropagatorConfig) (ctx : SpanContext),
      (marshalPropagatingTags cfg ctx).1.length ≤ cfg.maxTagsHeaderLen.toNat + 2) ∧
    (∀ (maxLen : Int) (k v : String) (rest : List (String × String))
        (sb : String) (tr : Trace),
      isValidPropagatableTag k v = true →
      ((sb.length + k.length + v.length : Nat) : Int) > maxLen →
      marshalLoop maxLen ((k, v) :: rest) sb tr =
        ("", tr.setTag keyPropagationError "inject_max_size")) := by
  constructor
  · intro cfg ctx
    unfold marshalPropagatingTags
    cases htr : ctx.trace with
    | none => simp
    | some tr =>
      simp only []
      exact marshalLoop_length_le _ _ "" tr (by simp)
  · intro maxLen k v rest sb tr hval hover
    simp only [marshalLoop]
    rw [if_neg (by simp [hval]), if_pos hover]

/-- Witness for C3 (amended) at a concrete overflowing pair. -/
theorem c3_marshal_bound_witness :
    marshalLoop 2 [("ab", "cd")] "" ⟨[], []⟩ =
      ("", Trace.setTag ⟨[], []⟩ keyPropagationError "inject_max_size") :=
  c3_marshal_bound.2 2 "ab" "cd" [] "" ⟨[], []⟩ (by decide) (by decide)

theorem propagatorsLoop_no_recognized (cfg : PropagatorConfig) :
    ∀ (toks : List String) (acc : List PropagatorKind),
      (∀ tok ∈ toks, strToLower tok ≠ "datadog" ∧ strToLower tok ≠ "b3" ∧
        strToLower tok ≠ "b3multi") →
      propagatorsLoop cfg toks acc = acc := by
  intro toks
  induction toks with
  | nil => intro acc _; rfl
  | cons t rest ih =>
    intro acc h
    obtain ⟨h1, h2, h3⟩ := h t (List.mem_cons_self t rest)
    simp only [propagatorsLoop]
    rw [if_neg h1, if_neg (by tauto)]
    exact ih acc (fun tok ht => h tok (List.mem_cons_of_mem t ht))

theorem propagatorsLoop_extends (cfg : PropagatorConfig) :
    ∀ (toks : List String) (acc : List PropagatorKind),
      ∃ t, propagatorsLoop cfg toks acc = acc ++ t := by
  intro toks
  induction toks with
  | nil => intro acc; exact ⟨[], by simp [propagatorsLoop]⟩
  | cons tok rest ih =>
    intro acc
    simp only [propagatorsLoop]
    by_cases h1 : strToLower tok = "datadog"
    · rw [if_pos h1]
      obtain ⟨t, ht⟩ := ih (acc ++ [PropagatorKind.datadog])
      exact ⟨[PropagatorKind.datadog] ++ t, by rw [ht]; simp⟩
    · rw [if_neg h1]
      by_cases h2 : strToLower tok = "b3" ∨ strToLower tok = "b3multi"
      · rw [if_pos h2]
        by_cases hb : cfg.b3 = true
        · rw [if_pos hb]; exact ih acc
        · rw [if_neg hb]
          obtain ⟨t, ht⟩ := ih (acc ++ [PropagatorKind.b3])
          exact ⟨[PropagatorKind.b3] ++ t, by rw [ht]; simp⟩
      · rw [if_neg h2]
        exact ih acc

/-- C9 counterexample: with the B3 flag enabled, a selector consisting of a
single unrecognized token does not fall back to the default list
`[datadog, B3]` — the loop's pre-seeded B3 entry makes the selection
non-empty, so the result is `[B3]`. -/
theorem c9_none_disables_counterexample :
    getPropagators { defaultConfig with b3 := true } "" "notaformat" =
      [PropagatorKind.b3] ∧
    defaultPropagators { defaultConfig with b3 := true } =
      [PropagatorKind.datadog, PropagatorKind.b3] ∧
    getPropagators { defaultConfig with b3 := true } "" "notaformat" ≠
      defaultPropagators { defaultConfig with b3 := true } := by decide

/-- C9 (amended): when the resolved selector for a direction is exactly
`none`, the propagator list is empty, the chained injection over the empty
list performs no writes, and the chained extraction over the empty list
returns the not-found error; a resolved selector (other than `none`) all of
whose comma-separated tokens name no recognized format is ignored with only a
diagnostic and yields the default list when the B3 flag is disabled — but
with the B3 flag enabled it yields `[B3]`, not the default list, because the
pre-seeded B3 entry keeps the selection non-empty. -/
theorem c9_none_disables :
    (∀ (cfg : PropagatorConfig) (env ps : String),
      (if ps = "" then env else ps) = "none" → getPropagators cfg env ps = []) ∧
    (∀ ctx : SpanContext, chainedInject [] ctx = ([], none)) ∧
    (∀ carrier : Carrier,
      chainedExtract [] carrier =
        (none, some PropagationError.spanContextNotFound)) ∧
    (∀ (cfg : PropagatorConfig) (env ps : String),
      (if ps = "" then env else ps) ≠ "" →
      (if ps = "" then env else ps) ≠ "none" →
      (∀ tok ∈ splitOnChar ',' (if ps = "" then env else ps),
        strToLower tok ≠ "datadog" ∧ strToLower tok ≠ "b3" ∧
        strToLower tok ≠ "b3multi") →
      getPropagators cfg env ps =
        if cfg.b3 then [PropagatorKind.b3] else defaultPropagators cfg) := by
  refine ⟨?_, fun _ => rfl, fun _ => rfl, ?_⟩
  · intro cfg env ps h
    have hne : ¬ (ps = "" ∧ env = "") := by
      rintro ⟨hp, he⟩
      rw [hp, he] at h
      simp at h
    unfold getPropagators
    rw [if_neg hne]
    simp only []
    rw [h]
    rw [if_pos rfl]
  · intro cfg env ps hne hnone htoks
    have hres : ¬ (ps = "" ∧ env = "") := by
      rintro ⟨hp, he⟩
      apply hne
      rw [hp, he]
      simp
    unfold getPropagators
    rw [if_neg hres]
    simp only []
    rw [if_neg hnone]
    rw [propagatorsLoop_no_recognized cfg _ _ htoks]
    cases hb : cfg.b3 <;> simp [hb]

/-- Witness for C9 at the selector `none` and at an unrecognized selector. -/
theorem c9_none_disables_witness :
    getPropagators defaultConfig "" "none" = [] ∧
    getPropagators defaultConfig "" "zzz" =
      (if defaultConfig.b3 then [PropagatorKind.b3]
       else defaultPropagators defaultConfig) :=
  ⟨c9_none_disables.1 defaultConfig "" "none" (by decide),
   c9_none_disables.2.2.2 defaultConfig "" "zzz" (by decide) (by decide)
     (by decide)⟩

/-- C10: with the B3 flag enabled, every resolved non-empty selector other
than `none` produces a propagator list that starts with the B3 propagator —
the selector cannot exclude B3 while the flag is set; in particular the
selector `datadog` yields `[B3, datadog]`. -/
theorem c10_b3_flag_first :
    (∀ (cfg : PropagatorConfig) (env ps : String),
      cfg.b3 = true →
      (if ps = "" then env else ps) ≠ "" →
      (if ps = "" then env else ps) ≠ "none" →
      ∃ rest, getPropagators cfg env ps = PropagatorKind.b3 :: rest) ∧
    getPropagators { defaultConfig with b3 := true } "" "datadog" =
      [PropagatorKind.b3, PropagatorKind.datadog] := by
  refine ⟨?_, by decide⟩
  intro cfg env ps hb hne hnone
  have hres : ¬ (ps = "" ∧ env = "") := by
    rintro ⟨hp, he⟩
    apply hne
    rw [hp, he]
    simp
  unfold getPropagators
  rw [if_neg hres]
  simp only []
  rw [if_neg hnone, if_pos hb]
  obtain ⟨t, ht⟩ := propagatorsLoop_extends cfg
    (splitOnChar ',' (if ps = "" then env else ps)) [PropagatorKind.b3]
  rw [ht]
  rw [if_neg (by simp)]
  exact ⟨t, by simp⟩

/-- Witness for C10 at the B3-enabled configuration and selector `datadog`. -/
theorem c10_b3_flag_first_witness :
    ∃ rest, getPropagators { defaultConfig with b3 := true } "" "datadog" =
      PropagatorKind.b3 :: rest :=
  c10_b3_flag_first.1 { defaultConfig with b3 := true } "" "datadog" rfl
    (by decide) (by decide)

end DDTrace
